import Mathlib

/-!
Verification of the pngme chunk model.

This file gives a shallow embedding of the core of the pngme repository:
the `ChunkType` validation logic (src/chunk_type.rs), the `Chunk`
record with its CRC-32-ISO-HDLC checksum and byte-exact
serialization/deserialization (src/chunk.rs), and the chunk-sequence
manipulation performed by the `encode` command (src/commands.rs).

Rust `u8` values are modelled as `Nat` (with an explicit `b < 256`
hypothesis where a theorem needs it), `u32` values as `Nat` with
explicit `% 2 ^ 32` at the one place the source truncates
(`data.len() as u32`), byte slices as `List Nat`, and fallible
conversions as `Except`.
-/

/-! ## ChunkType (src/chunk_type.rs) -/

/-- Error enum `ChunkTypeError` from src/chunk_type.rs. -/
inductive ChunkTypeError where
  | ByteOutOfRange
  | BadLen
deriving DecidableEq, Repr

/-- `ChunkType([u8; 4])`: a PNG chunk-type identifier, four raw bytes. -/
structure ChunkType where
  b0 : Nat
  b1 : Nat
  b2 : Nat
  b3 : Nat
deriving DecidableEq, Repr

/-- `ChunkType::bytes`: the four stored bytes, in order. -/
def ChunkType.bytes (t : ChunkType) : List Nat := [t.b0, t.b1, t.b2, t.b3]

/-- `ChunkType::PROPERTY_BIT_MASK = 32u8`. -/
def ChunkType.PROPERTY_BIT_MASK : Nat := 32

/-- `ChunkType::is_critical`: `self.0[0] & PROPERTY_BIT_MASK == 0`. -/
def ChunkType.is_critical (t : ChunkType) : Bool :=
  t.b0 &&& ChunkType.PROPERTY_BIT_MASK == 0

/-- `ChunkType::is_public`: `self.0[1] & PROPERTY_BIT_MASK == 0`. -/
def ChunkType.is_public (t : ChunkType) : Bool :=
  t.b1 &&& ChunkType.PROPERTY_BIT_MASK == 0

/-- `ChunkType::is_reserved_bit_valid`: `self.0[2] & PROPERTY_BIT_MASK == 0`. -/
def ChunkType.is_reserved_bit_valid (t : ChunkType) : Bool :=
  t.b2 &&& ChunkType.PROPERTY_BIT_MASK == 0

/-- `ChunkType::is_safe_to_copy`: `self.0[3] & PROPERTY_BIT_MASK != 0`. -/
def ChunkType.is_safe_to_copy (t : ChunkType) : Bool :=
  t.b3 &&& ChunkType.PROPERTY_BIT_MASK != 0

/-- `ChunkType::is_valid`: delegates to `is_reserved_bit_valid`. -/
def ChunkType.is_valid (t : ChunkType) : Bool := t.is_reserved_bit_valid

/-- The per-byte rejection test used by both `TryFrom` loops in
src/chunk_type.rs: `b < 65 || (b > 90 && b < 97) || b > 122`. -/
def badByte (b : Nat) : Bool := b < 65 || (b > 90 && b < 97) || b > 122

/-- `TryFrom<[u8; 4]> for ChunkType`: reject if any byte fails the
range test, otherwise wrap the four bytes. -/
def ChunkType.tryFrom4 (a b c d : Nat) : Except ChunkTypeError ChunkType :=
  if [a, b, c, d].any badByte then .error .ByteOutOfRange
  else .ok ⟨a, b, c, d⟩

/-- `TryFrom<&[u8]> for ChunkType`: `BadLen` unless the slice has
exactly 4 bytes, then the same per-byte range test. -/
def ChunkType.tryFromSlice (v : List Nat) : Except ChunkTypeError ChunkType :=
  match v with
  | [a, b, c, d] => ChunkType.tryFrom4 a b c d
  | _ => .error .BadLen

/-- UTF-8 encoding of a single Unicode scalar value (a Rust `char`). -/
def utf8EncodeChar (c : Nat) : List Nat :=
  if c < 0x80 then [c]
  else if c < 0x800 then [0xC0 ||| c >>> 6, 0x80 ||| (c &&& 0x3F)]
  else if c < 0x10000 then
    [0xE0 ||| c >>> 12, 0x80 ||| (c >>> 6 &&& 0x3F), 0x80 ||| (c &&& 0x3F)]
  else
    [0xF0 ||| c >>> 18, 0x80 ||| (c >>> 12 &&& 0x3F), 0x80 ||| (c >>> 6 &&& 0x3F),
      0x80 ||| (c &&& 0x3F)]

/-- Rust `str::as_bytes`: the UTF-8 byte encoding of a string, the
string being modelled as its list of Unicode scalar values. -/
def utf8Encode (s : List Nat) : List Nat := (s.map utf8EncodeChar).flatten

/-- `FromStr for ChunkType`: `s.as_bytes().try_into()`. -/
def ChunkType.from_str (s : List Nat) : Except ChunkTypeError ChunkType :=
  ChunkType.tryFromSlice (utf8Encode s)

mutual

/-- Validity test for a UTF-8 byte sequence (RFC 3629), as enforced by
Rust `std::str::from_utf8`: ASCII bytes stand alone; 2-, 3- and 4-byte
sequences need the right leading byte and continuation bytes, with the
overlong/surrogate/out-of-range encodings excluded by a narrowed range
on the first continuation byte. -/
def validUtf8 : List Nat → Bool
  | [] => true
  | b :: rest =>
    if b ≤ 0x7F then validUtf8 rest
    else if 0xC2 ≤ b && b ≤ 0xDF then validCont1 0x80 0xBF rest
    else if b == 0xE0 then validCont2 0xA0 0xBF rest
    else if (0xE1 ≤ b && b ≤ 0xEC) || b == 0xEE || b == 0xEF then
      validCont2 0x80 0xBF rest
    else if b == 0xED then validCont2 0x80 0x9F rest
    else if b == 0xF0 then validCont3 0x90 0xBF rest
    else if 0xF1 ≤ b && b ≤ 0xF3 then validCont3 0x80 0xBF rest
    else if b == 0xF4 then validCont3 0x80 0x8F rest
    else false

/-- One continuation byte in `lo..=hi`, then a fresh sequence. -/
def validCont1 (lo hi : Nat) : List Nat → Bool
  | c :: r => lo ≤ c && c ≤ hi && validUtf8 r
  | [] => false

/-- A continuation byte in `lo..=hi`, then one plain continuation
byte, then a fresh sequence. -/
def validCont2 (lo hi : Nat) : List Nat → Bool
  | c :: r => lo ≤ c && c ≤ hi && validCont1 0x80 0xBF r
  | [] => false

/-- A continuation byte in `lo..=hi`, then two plain continuation
bytes, then a fresh sequence. -/
def validCont3 (lo hi : Nat) : List Nat → Bool
  | c :: r => lo ≤ c && c ≤ hi && validCont2 0x80 0xBF r
  | [] => false

end

/-- Rust `std::str::from_utf8`: succeeds (returning the byte content)
exactly on valid UTF-8 input. -/
def from_utf8 (l : List Nat) : Option (List Nat) :=
  if validUtf8 l then some l else none

/-- `Display for ChunkType`: `std::str::from_utf8(&self.0).unwrap()`.
The result is `none` exactly when the `unwrap` would panic. -/
def ChunkType.display (t : ChunkType) : Option (List Nat) :=
  from_utf8 t.bytes

/-! ## CRC-32-ISO-HDLC (the `crc` crate's `CRC_32_ISO_HDLC`) -/

/-- The reflected generator polynomial 0xEDB88320 of CRC-32-ISO-HDLC. -/
def crcPoly : Nat := 0xEDB88320

/-- One bit-step of the reflected CRC-32 algorithm. -/
def crcStep (c : Nat) : Nat :=
  if c &&& 1 == 1 then (c >>> 1) ^^^ crcPoly else c >>> 1

/-- Fold one input byte into the CRC state. -/
def crcUpdateByte (c b : Nat) : Nat := crcStep^[8] (c ^^^ b)

/-- CRC-32-ISO-HDLC (IEEE 802.3, the zlib/gzip/PNG CRC) of a byte
sequence: init 0xFFFFFFFF, reflected feed of each byte, final xor
0xFFFFFFFF. -/
def crc32 (data : List Nat) : Nat :=
  (data.foldl crcUpdateByte 0xFFFFFFFF) ^^^ 0xFFFFFFFF

/-! ## Chunk (src/chunk.rs) -/

/-- Error enum `ChunkError` from src/chunk.rs (the `Utf8` variant,
unused by the claims under verification, carries no payload here). -/
inductive ChunkError where
  | BadLen
  | BadDataLen
  | ChunkType (e : ChunkTypeError)
  | BadCrc
  | Utf8
deriving DecidableEq, Repr

/-- `Chunk { length: u32, chunk_type: ChunkType, data: Vec<u8>, crc: u32 }`. -/
structure Chunk where
  length : Nat
  chunk_type : ChunkType
  data : List Nat
  crc : Nat
deriving DecidableEq, Repr

/-- `Chunk::crc_digest`: one CRC digest updated first with the type
bytes, then with the data bytes — the CRC of their concatenation. -/
def Chunk.crc_digest (chunk_type_slice data_slice : List Nat) : Nat :=
  crc32 (chunk_type_slice ++ data_slice)

/-- `Chunk::new`: total constructor; `length` is `data.len() as u32`
(hence the explicit `% 2 ^ 32`), `crc` is the digest over type bytes
then data. -/
def Chunk.new (chunk_type : ChunkType) (data : List Nat) : Chunk :=
  { length := data.length % 2 ^ 32
    chunk_type := chunk_type
    data := data
    crc := Chunk.crc_digest chunk_type.bytes data }

/-- `u32::to_be_bytes`: the four big-endian bytes of a `u32` value. -/
def u32ToBE (n : Nat) : List Nat :=
  [n / 2 ^ 24 % 256, n / 2 ^ 16 % 256, n / 2 ^ 8 % 256, n % 256]

/-- `u32::from_be_bytes`: the value of a big-endian byte sequence. -/
def beNat (l : List Nat) : Nat := l.foldl (fun a b => a * 256 + b) 0

/-- `Chunk::as_bytes`: `length(BE4) ++ type(4) ++ data ++ crc(BE4)`. -/
def Chunk.as_bytes (c : Chunk) : List Nat :=
  u32ToBE c.length ++ c.chunk_type.bytes ++ c.data ++ u32ToBE c.crc

/-- `TryFrom<&[u8]> for Chunk`: the deterministic parse of
src/chunk.rs — minimum-size check, big-endian length field against
actual data span, chunk-type validation, CRC recomputation over the
type and data slices against the trailing big-endian CRC field. -/
def Chunk.tryFrom (v : List Nat) : Except ChunkError Chunk :=
  if v.length < 12 then .error .BadLen
  else
    let length := beNat (v.take 4)
    if length ≠ v.length - 12 then .error .BadDataLen
    else
      let chunk_type_slice := (v.drop 4).take 4
      let data_slice := (v.drop 8).take (v.length - 12)
      let crc_slice := v.drop (v.length - 4)
      match ChunkType.tryFromSlice chunk_type_slice with
      | .error e => .error (.ChunkType e)
      | .ok chunk_type =>
        let crc_calculated := Chunk.crc_digest chunk_type_slice data_slice
        let crc := beNat crc_slice
        if crc ≠ crc_calculated then .error .BadCrc
        else .ok { length := length, chunk_type := chunk_type
                   data := data_slice, crc := crc }

/-! ## Png and the encode command (src/commands.rs)

The file png.rs is part of the crate (`use crate::png::{Png, PngError}`)
but is not among the sources available here, so the `Png` container and
its operations are modelled from the specification. -/

/-- Modelled from the spec: the error cases of `Png::remove_chunk` —
`ChunkNotFound` when no stored chunk matches, or the propagated
chunk-type validation error when the search string is unparseable.
png.rs is missing from the sources. -/
inductive PngError where
  | ChunkNotFound
  | BadType (e : ChunkTypeError)
deriving DecidableEq, Repr

/-- Modelled from the spec: a `Png` is a fixed 8-byte signature (a
constant, not represented) plus an ordered sequence of chunks.
png.rs is missing from the sources. -/
structure Png where
  chunks : List Chunk
deriving DecidableEq, Repr

/-- Remove the first chunk of the given type from a list, returning it
and the remaining list in original order, or `none` if no chunk
matches. -/
def removeFirst (t : ChunkType) : List Chunk → Option (Chunk × List Chunk)
  | [] => none
  | c :: rest =>
    if c.chunk_type = t then some (c, rest)
    else
      match removeFirst t rest with
      | some (r, rest2) => some (r, c :: rest2)
      | none => none

/-- Modelled from the spec: `Png::remove_chunk` parses the type string
(propagating its validation error), removes and returns the first
chunk whose type matches, and fails with `ChunkNotFound` when none
does. png.rs is missing from the sources. -/
def Png.remove_chunk (p : Png) (typeStr : List Nat) :
    Except PngError (Chunk × Png) :=
  match ChunkType.from_str typeStr with
  | .error e => .error (.BadType e)
  | .ok t =>
    match removeFirst t p.chunks with
    | some (c, rest) => .ok (c, ⟨rest⟩)
    | none => .error .ChunkNotFound

/-- Modelled from the spec: `Png::append_chunk` pushes to the end of
the ordered chunk sequence. png.rs is missing from the sources. -/
def Png.append_chunk (p : Png) (c : Chunk) : Png :=
  ⟨p.chunks ++ [c]⟩

/-- The error of a failed `encode` run (Rust erases it to
`Box<dyn Error>`): either a `Png` operation error or a chunk-type
parse error. -/
inductive CommandError where
  | PngErr (e : PngError)
  | TypeErr (e : ChunkTypeError)
deriving DecidableEq, Repr

/-- The Unicode scalar values of the string literal "IEND". -/
def iendStr : List Nat := [73, 69, 78, 68]

/-- The chunk type with the bytes of "IEND". -/
def iendType : ChunkType := ⟨73, 69, 78, 68⟩

/-- The chunk-sequence transformation of `commands::encode` between
its file read and file write: remove the first IEND chunk (propagating
failure), parse the chunk-type argument, build the message chunk,
append it, and re-append the removed IEND chunk. -/
def encode (p : Png) (chunkTypeStr message : List Nat) :
    Except CommandError Png :=
  match p.remove_chunk iendStr with
  | .error e => .error (.PngErr e)
  | .ok (end_chunk, png) =>
    match ChunkType.from_str chunkTypeStr with
    | .error e => .error (.TypeErr e)
    | .ok t =>
      .ok ((png.append_chunk (Chunk.new t message)).append_chunk end_chunk)

/-! ## Test fixtures from the repository's unit tests -/

/-- The chunk type "RuSt" of the unit tests. -/
def testType : ChunkType := ⟨82, 117, 83, 116⟩

/-- The bytes of the test literal
"This is where your secret message will be!" (42 bytes). -/
def secretMsg : List Nat :=
  [84, 104, 105, 115, 32, 105, 115, 32, 119, 104, 101, 114, 101, 32,
   121, 111, 117, 114, 32, 115, 101, 99, 114, 101, 116, 32, 109, 101,
   115, 115, 97, 103, 101, 32, 119, 105, 108, 108, 32, 98, 101, 33]

/-- First 16 bytes of "RuSt" ++ the test message. -/
def crcInputA : List Nat :=
  [82, 117, 83, 116, 84, 104, 105, 115, 32, 105, 115, 32, 119, 104, 101, 114]

/-- Next 16 bytes of the test input. -/
def crcInputB : List Nat :=
  [101, 32, 121, 111, 117, 114, 32, 115, 101, 99, 114, 101, 116, 32, 109, 101]

/-- Last 14 bytes of the test input. -/
def crcInputC : List Nat :=
  [115, 115, 97, 103, 101, 32, 119, 105, 108, 108, 32, 98, 101, 33]

/-- The serialized bytes of the repository's test chunk: length 42,
type "RuSt", the test message, CRC 2882656334. -/
def testChunkBytes : List Nat :=
  u32ToBE 42 ++ testType.bytes ++ secretMsg ++ u32ToBE 2882656334

/-- The repository's test chunk as a record. -/
def testChunk : Chunk := ⟨42, testType, secretMsg, 2882656334⟩



deriving instance DecidableEq for Except

/-! ## Helper lemmas -/

lemma badByte_false_iff (b : Nat) :
    badByte b = false ↔ (65 ≤ b ∧ b ≤ 90) ∨ (97 ≤ b ∧ b ≤ 122) := by
  simp [badByte]
  omega

lemma badByte_true_iff (b : Nat) :
    badByte b = true ↔ ¬((65 ≤ b ∧ b ≤ 90) ∨ (97 ≤ b ∧ b ≤ 122)) := by
  rw [← badByte_false_iff]
  simp

lemma and32_eq_zero_iff (n : Nat) : (n &&& 32 = 0) ↔ n / 2 ^ 5 % 2 = 0 := by
  rw [show (32 : Nat) = 2 ^ 5 by norm_num, Nat.and_two_pow, Nat.testBit_to_div_mod]
  rcases Nat.mod_two_eq_zero_or_one (n / 2 ^ 5) with h | h <;> simp [h]

lemma tryFrom4_ok_inv {a b c d : Nat} {t : ChunkType}
    (h : ChunkType.tryFrom4 a b c d = .ok t) :
    t = ⟨a, b, c, d⟩ ∧ badByte a = false ∧ badByte b = false ∧
      badByte c = false ∧ badByte d = false := by
  unfold ChunkType.tryFrom4 at h
  by_cases hb : [a, b, c, d].any badByte
  · rw [if_pos hb] at h
    cases h
  · rw [if_neg hb] at h
    simp only [List.any_cons, List.any_nil, Bool.or_eq_true, Bool.or_false] at hb
    push_neg at hb
    cases h
    refine ⟨rfl, ?_, ?_, ?_, ?_⟩ <;> simp_all

lemma tryFromSlice_ok_inv {v : List Nat} {t : ChunkType}
    (h : ChunkType.tryFromSlice v = .ok t) :
    v = [t.b0, t.b1, t.b2, t.b3] ∧
      ChunkType.tryFrom4 t.b0 t.b1 t.b2 t.b3 = .ok t := by
  rcases v with _ | ⟨a, _ | ⟨b, _ | ⟨c, _ | ⟨d, _ | ⟨e, rest⟩⟩⟩⟩⟩ <;>
    simp only [ChunkType.tryFromSlice] at h <;>
    try cases h
  obtain ⟨ht, -⟩ := tryFrom4_ok_inv h
  subst ht
  exact ⟨rfl, h⟩

lemma validUtf8_of_ascii : ∀ l : List Nat, (∀ b ∈ l, b ≤ 127) → validUtf8 l = true := by
  intro l
  induction l with
  | nil => intro _; rfl
  | cons b rest ih =>
    intro h
    have hb : b ≤ 127 := h b (List.mem_cons_self b rest)
    rw [validUtf8, if_pos hb]
    exact ih fun x hx => h x (List.mem_cons_of_mem b hx)

/-! ## Claims about ChunkType -/

/-- Claim C4: construction of a `ChunkType` from a 4-byte array
succeeds exactly when every byte is an ASCII letter (in 65–90 or
97–122), and fails with `ByteOutOfRange` exactly when some byte is
not. -/
theorem chunkType_letter_validation :
    ∀ a b c d : Nat,
      ((∃ t, ChunkType.tryFrom4 a b c d = .ok t) ↔
        (((65 ≤ a ∧ a ≤ 90) ∨ (97 ≤ a ∧ a ≤ 122)) ∧
         ((65 ≤ b ∧ b ≤ 90) ∨ (97 ≤ b ∧ b ≤ 122)) ∧
         ((65 ≤ c ∧ c ≤ 90) ∨ (97 ≤ c ∧ c ≤ 122)) ∧
         ((65 ≤ d ∧ d ≤ 90) ∨ (97 ≤ d ∧ d ≤ 122)))) ∧
      (ChunkType.tryFrom4 a b c d = .error .ByteOutOfRange ↔
        ¬(((65 ≤ a ∧ a ≤ 90) ∨ (97 ≤ a ∧ a ≤ 122)) ∧
          ((65 ≤ b ∧ b ≤ 90) ∨ (97 ≤ b ∧ b ≤ 122)) ∧
          ((65 ≤ c ∧ c ≤ 90) ∨ (97 ≤ c ∧ c ≤ 122)) ∧
          ((65 ≤ d ∧ d ≤ 90) ∨ (97 ≤ d ∧ d ≤ 122)))) := by
  intro a b c d
  have hany : [a, b, c, d].any badByte = true ↔
      ¬(((65 ≤ a ∧ a ≤ 90) ∨ (97 ≤ a ∧ a ≤ 122)) ∧
        ((65 ≤ b ∧ b ≤ 90) ∨ (97 ≤ b ∧ b ≤ 122)) ∧
        ((65 ≤ c ∧ c ≤ 90) ∨ (97 ≤ c ∧ c ≤ 122)) ∧
        ((65 ≤ d ∧ d ≤ 90) ∨ (97 ≤ d ∧ d ≤ 122))) := by
    simp only [List.any_cons, List.any_nil, Bool.or_eq_true, Bool.or_false,
      badByte_true_iff]
    tauto
  constructor
  · constructor
    · rintro ⟨t, ht⟩
      by_contra hl
      simp [ChunkType.tryFrom4, hany.mpr hl] at ht
    · intro hl
      have hb : ¬ [a, b, c, d].any badByte = true := fun hb => (hany.mp hb) hl
      refine ⟨⟨a, b, c, d⟩, ?_⟩
      simp [ChunkType.tryFrom4, hb]
  · constructor
    · intro h
      by_cases hb : [a, b, c, d].any badByte
      · exact hany.mp hb
      · simp [ChunkType.tryFrom4, hb] at h
    · intro hl
      simp [ChunkType.tryFrom4, hany.mpr hl]

lemma tryFrom4_ne_badLen (a b c d : Nat) :
    ChunkType.tryFrom4 a b c d ≠ .error .BadLen := by
  unfold ChunkType.tryFrom4
  split <;> simp

/-- Claim C5: the four property queries of a `ChunkType` each read bit
5 (value 32) of their byte: critical ⇔ bit 5 of byte 0 is 0, public ⇔
bit 5 of byte 1 is 0, reserved-bit-valid ⇔ bit 5 of byte 2 is 0, and
safe-to-copy ⇔ bit 5 of byte 3 is 1. -/
theorem chunkType_property_bits :
    ∀ t : ChunkType,
      (t.is_critical = true ↔ t.b0 / 2 ^ 5 % 2 = 0) ∧
      (t.is_public = true ↔ t.b1 / 2 ^ 5 % 2 = 0) ∧
      (t.is_reserved_bit_valid = true ↔ t.b2 / 2 ^ 5 % 2 = 0) ∧
      (t.is_safe_to_copy = true ↔ t.b3 / 2 ^ 5 % 2 = 1) := by
  intro t
  refine ⟨?_, ?_, ?_, ?_⟩
  · simp only [ChunkType.is_critical, ChunkType.PROPERTY_BIT_MASK, beq_iff_eq]
    exact and32_eq_zero_iff t.b0
  · simp only [ChunkType.is_public, ChunkType.PROPERTY_BIT_MASK, beq_iff_eq]
    exact and32_eq_zero_iff t.b1
  · simp only [ChunkType.is_reserved_bit_valid, ChunkType.PROPERTY_BIT_MASK,
      beq_iff_eq]
    exact and32_eq_zero_iff t.b2
  · simp only [ChunkType.is_safe_to_copy, ChunkType.PROPERTY_BIT_MASK,
      bne_iff_ne, ne_eq]
    rw [and32_eq_zero_iff]
    omega

/-- Claim C6: `is_valid` is exactly `is_reserved_bit_valid`; the other
three property bytes have no influence (changing bytes 0, 1 and 3
never changes `is_valid`); the type bytes of "RuSt" are valid and
those of "Rust" are not. -/
theorem chunkType_is_valid_reserved_only :
    (∀ t : ChunkType, t.is_valid = t.is_reserved_bit_valid) ∧
    (∀ b0 b1 b2 b3 c0 c1 c3 : Nat,
      ChunkType.is_valid ⟨b0, b1, b2, b3⟩ = ChunkType.is_valid ⟨c0, c1, b2, c3⟩) ∧
    ChunkType.is_valid ⟨82, 117, 83, 116⟩ = true ∧
    ChunkType.is_valid ⟨82, 117, 115, 116⟩ = false :=
  ⟨fun _ => rfl, fun _ _ _ _ _ _ _ => rfl, by decide, by decide⟩

/-- Claim C7: slice-based `ChunkType` construction fails with `BadLen`
exactly when the slice length is not 4 (before any byte-range check);
on 4-byte slices it coincides with the array constructor; string
parsing applies the slice constructor to the UTF-8 bytes, so a string
whose encoding is not 4 bytes long fails with `BadLen`. -/
theorem chunkType_slice_and_string_parse :
    (∀ v : List Nat, ChunkType.tryFromSlice v = .error .BadLen ↔ v.length ≠ 4) ∧
    (∀ a b c d : Nat, ChunkType.tryFromSlice [a, b, c, d] = ChunkType.tryFrom4 a b c d) ∧
    (∀ s : List Nat, ChunkType.from_str s = ChunkType.tryFromSlice (utf8Encode s)) ∧
    (∀ s : List Nat, (utf8Encode s).length ≠ 4 →
      ChunkType.from_str s = .error .BadLen) := by
  have h1 : ∀ v : List Nat,
      ChunkType.tryFromSlice v = .error .BadLen ↔ v.length ≠ 4 := by
    intro v
    constructor
    · intro h hlen
      rcases v with _ | ⟨a, _ | ⟨b, _ | ⟨c, _ | ⟨d, _ | ⟨e, r⟩⟩⟩⟩⟩ <;>
        simp at hlen
      exact tryFrom4_ne_badLen a b c d h
    · intro hlen
      rcases v with _ | ⟨a, _ | ⟨b, _ | ⟨c, _ | ⟨d, _ | ⟨e, r⟩⟩⟩⟩⟩ <;>
        first
          | rfl
          | exact absurd rfl hlen
  refine ⟨h1, fun a b c d => rfl, fun s => rfl, fun s hs => (h1 _).mpr hs⟩

/-- Claim C9: a `ChunkType` obtained from any of the three validating
constructors has only ASCII-letter bytes, which are valid UTF-8, so
its `Display` rendering is total — the internal `unwrap` of
`std::str::from_utf8` can never panic. -/
theorem chunkType_display_total :
    (∀ (a b c d : Nat) (t : ChunkType),
      ChunkType.tryFrom4 a b c d = .ok t → t.display.isSome = true) ∧
    (∀ (v : List Nat) (t : ChunkType),
      ChunkType.tryFromSlice v = .ok t → t.display.isSome = true) ∧
    (∀ (s : List Nat) (t : ChunkType),
      ChunkType.from_str s = .ok t → t.display.isSome = true) := by
  have bound : ∀ x : Nat, badByte x = false → x ≤ 127 := by
    intro x hx
    rcases (badByte_false_iff x).mp hx with ⟨-, h2⟩ | ⟨-, h2⟩ <;> omega
  have key : ∀ (a b c d : Nat) (t : ChunkType),
      ChunkType.tryFrom4 a b c d = .ok t → t.display.isSome = true := by
    intro a b c d t h
    obtain ⟨rfl, ha, hb, hc, hd⟩ := tryFrom4_ok_inv h
    have hv : validUtf8 [a, b, c, d] = true := by
      apply validUtf8_of_ascii
      intro x hx
      simp only [List.mem_cons, List.not_mem_nil, or_false] at hx
      rcases hx with rfl | rfl | rfl | rfl
      · exact bound _ ha
      · exact bound _ hb
      · exact bound _ hc
      · exact bound _ hd
    simp [ChunkType.display, from_utf8, ChunkType.bytes, hv]
  refine ⟨key, ?_, ?_⟩
  · intro v t h
    obtain ⟨-, h4⟩ := tryFromSlice_ok_inv h
    exact key _ _ _ _ _ h4
  · intro s t h
    unfold ChunkType.from_str at h
    obtain ⟨-, h4⟩ := tryFromSlice_ok_inv h
    exact key _ _ _ _ _ h4

/-- Witness for C7 at the 5-letter string "hello". -/
theorem chunkType_slice_and_string_parse_witness :
    ChunkType.from_str [104, 101, 108, 108, 111] = .error .BadLen :=
  chunkType_slice_and_string_parse.2.2.2 [104, 101, 108, 108, 111] (by decide)

/-- Witness for C9 at the three constructors, on "RuSt", "teSt" and
"IEND". -/
theorem chunkType_display_total_witness :
    (ChunkType.display ⟨82, 117, 83, 116⟩).isSome = true ∧
    (ChunkType.display ⟨116, 101, 83, 116⟩).isSome = true ∧
    (ChunkType.display ⟨73, 69, 78, 68⟩).isSome = true :=
  ⟨chunkType_display_total.1 82 117 83 116 ⟨82, 117, 83, 116⟩ (by decide),
   chunkType_display_total.2.1 [116, 101, 83, 116] ⟨116, 101, 83, 116⟩ (by decide),
   chunkType_display_total.2.2 [73, 69, 78, 68] ⟨73, 69, 78, 68⟩ (by decide)⟩

/-! ## Helper lemmas for Chunk parsing -/

lemma tryFrom_badLen {v : List Nat} (h : v.length < 12) :
    Chunk.tryFrom v = .error .BadLen := by
  simp [Chunk.tryFrom, h]

lemma tryFrom_badDataLen {v : List Nat} (h12 : ¬ v.length < 12)
    (hlen : beNat (v.take 4) ≠ v.length - 12) :
    Chunk.tryFrom v = .error .BadDataLen := by
  simp [Chunk.tryFrom, h12, hlen]

lemma tryFrom_chunkTypeErr {v : List Nat} {e : ChunkTypeError}
    (h12 : ¬ v.length < 12) (hlen : beNat (v.take 4) = v.length - 12)
    (ht : ChunkType.tryFromSlice ((v.drop 4).take 4) = .error e) :
    Chunk.tryFrom v = .error (.ChunkType e) := by
  simp [Chunk.tryFrom, h12, hlen, ht]

lemma tryFrom_badCrc {v : List Nat} {t : ChunkType}
    (h12 : ¬ v.length < 12) (hlen : beNat (v.take 4) = v.length - 12)
    (ht : ChunkType.tryFromSlice ((v.drop 4).take 4) = .ok t)
    (hcrc : beNat (v.drop (v.length - 4)) ≠
      Chunk.crc_digest ((v.drop 4).take 4) ((v.drop 8).take (v.length - 12))) :
    Chunk.tryFrom v = .error .BadCrc := by
  simp [Chunk.tryFrom, h12, hlen, ht, hcrc]

lemma tryFrom_ok {v : List Nat} {t : ChunkType}
    (h12 : ¬ v.length < 12) (hlen : beNat (v.take 4) = v.length - 12)
    (ht : ChunkType.tryFromSlice ((v.drop 4).take 4) = .ok t)
    (hcrc : beNat (v.drop (v.length - 4)) =
      Chunk.crc_digest ((v.drop 4).take 4) ((v.drop 8).take (v.length - 12))) :
    Chunk.tryFrom v = .ok
      ⟨beNat (v.take 4), t, (v.drop 8).take (v.length - 12),
        beNat (v.drop (v.length - 4))⟩ := by
  simp [Chunk.tryFrom, h12, hlen, ht, hcrc]

lemma tryFrom_ok_inv {v : List Nat} {c : Chunk}
    (h : Chunk.tryFrom v = .ok c) :
    ¬ v.length < 12 ∧ beNat (v.take 4) = v.length - 12 ∧
      ChunkType.tryFromSlice ((v.drop 4).take 4) = .ok c.chunk_type ∧
      beNat (v.drop (v.length - 4)) =
        Chunk.crc_digest ((v.drop 4).take 4) ((v.drop 8).take (v.length - 12)) ∧
      c = ⟨beNat (v.take 4), c.chunk_type, (v.drop 8).take (v.length - 12),
        beNat (v.drop (v.length - 4))⟩ := by
  by_cases h12 : v.length < 12
  · rw [tryFrom_badLen h12] at h
    cases h
  by_cases hlen : beNat (v.take 4) = v.length - 12
  case neg => rw [tryFrom_badDataLen h12 hlen] at h; cases h
  obtain ⟨e0, ht⟩ | ⟨t, ht⟩ :
      (∃ e, ChunkType.tryFromSlice ((v.drop 4).take 4) = .error e) ∨
      (∃ t2, ChunkType.tryFromSlice ((v.drop 4).take 4) = .ok t2) := by
    cases ChunkType.tryFromSlice ((v.drop 4).take 4) with
    | error e => exact .inl ⟨e, rfl⟩
    | ok t2 => exact .inr ⟨t2, rfl⟩
  · rw [tryFrom_chunkTypeErr h12 hlen ht] at h
    cases h
  by_cases hcrc : beNat (v.drop (v.length - 4)) =
      Chunk.crc_digest ((v.drop 4).take 4) ((v.drop 8).take (v.length - 12))
  case neg => rw [tryFrom_badCrc h12 hlen ht hcrc] at h; cases h
  rw [tryFrom_ok h12 hlen ht hcrc] at h
  have hc := Except.ok.inj h
  rw [← hc]
  exact ⟨h12, hlen, ht, hcrc, rfl⟩

/-- Claim C2: `Chunk::try_from` fails with `BadLen` exactly on inputs
shorter than 12 bytes; otherwise fails with `BadDataLen` exactly when
the big-endian length field differs from the input length minus 12;
otherwise propagates the chunk-type validation error, wrapped in
`ChunkType`; otherwise fails with `BadCrc` exactly when the CRC
recomputed over the type and data slices differs from the trailing
big-endian field; and otherwise succeeds with the parsed fields — the
checks applying in exactly this order. -/
theorem chunk_tryFrom_algorithm :
    ∀ v : List Nat,
      (Chunk.tryFrom v = .error .BadLen ↔ v.length < 12) ∧
      (Chunk.tryFrom v = .error .BadDataLen ↔
        12 ≤ v.length ∧ beNat (v.take 4) ≠ v.length - 12) ∧
      (∀ e, Chunk.tryFrom v = .error (.ChunkType e) ↔
        12 ≤ v.length ∧ beNat (v.take 4) = v.length - 12 ∧
          ChunkType.tryFromSlice ((v.drop 4).take 4) = .error e) ∧
      (Chunk.tryFrom v = .error .BadCrc ↔
        12 ≤ v.length ∧ beNat (v.take 4) = v.length - 12 ∧
          (∃ t, ChunkType.tryFromSlice ((v.drop 4).take 4) = .ok t) ∧
          beNat (v.drop (v.length - 4)) ≠
            Chunk.crc_digest ((v.drop 4).take 4) ((v.drop 8).take (v.length - 12))) ∧
      (∀ c, Chunk.tryFrom v = .ok c ↔
        12 ≤ v.length ∧ beNat (v.take 4) = v.length - 12 ∧
          ChunkType.tryFromSlice ((v.drop 4).take 4) = .ok c.chunk_type ∧
          beNat (v.drop (v.length - 4)) =
            Chunk.crc_digest ((v.drop 4).take 4) ((v.drop 8).take (v.length - 12)) ∧
          c.length = beNat (v.take 4) ∧
          c.data = (v.drop 8).take (v.length - 12) ∧
          c.crc = beNat (v.drop (v.length - 4))) := by
  intro v
  by_cases h12 : v.length < 12
  · have hv := tryFrom_badLen (v := v) h12
    refine ⟨⟨fun _ => h12, fun _ => hv⟩, ?_, ?_, ?_, ?_⟩
    · rw [hv]
      exact ⟨fun h => by simp at h, fun h => absurd h.1 (by omega)⟩
    · intro e
      rw [hv]
      exact ⟨fun h => by simp at h, fun h => absurd h.1 (by omega)⟩
    · rw [hv]
      exact ⟨fun h => by simp at h, fun h => absurd h.1 (by omega)⟩
    · intro c
      rw [hv]
      exact ⟨fun h => by simp at h, fun h => absurd h.1 (by omega)⟩
  by_cases hlen : beNat (v.take 4) = v.length - 12
  case neg =>
    have hv := tryFrom_badDataLen h12 hlen
    refine ⟨?_, ⟨fun _ => ⟨by omega, hlen⟩, fun _ => hv⟩, ?_, ?_, ?_⟩
    · rw [hv]
      exact ⟨fun h => by simp at h, fun hl => absurd hl h12⟩
    · intro e
      rw [hv]
      exact ⟨fun h => by simp at h, fun h => absurd h.2.1 hlen⟩
    · rw [hv]
      exact ⟨fun h => by simp at h, fun h => absurd h.2.1 hlen⟩
    · intro c
      rw [hv]
      exact ⟨fun h => by simp at h, fun h => absurd h.2.1 hlen⟩
  obtain ⟨e0, ht⟩ | ⟨t, ht⟩ :
      (∃ e, ChunkType.tryFromSlice ((v.drop 4).take 4) = .error e) ∨
      (∃ t, ChunkType.tryFromSlice ((v.drop 4).take 4) = .ok t) := by
    cases ChunkType.tryFromSlice ((v.drop 4).take 4) with
    | error e => exact .inl ⟨e, rfl⟩
    | ok t => exact .inr ⟨t, rfl⟩
  · have hv := tryFrom_chunkTypeErr h12 hlen ht
    refine ⟨?_, ?_, ?_, ?_, ?_⟩
    · rw [hv]
      exact ⟨fun h => by simp at h, fun hl => absurd hl h12⟩
    · rw [hv]
      exact ⟨fun h => by simp at h, fun h => absurd hlen h.2⟩
    · intro e
      rw [hv]
      constructor
      · intro h
        have he : e0 = e := by simp at h; exact h
        subst he
        exact ⟨by omega, hlen, ht⟩
      · rintro ⟨-, -, hte⟩
        rw [ht] at hte
        have he : e0 = e := by simp at hte; exact hte
        rw [← he]
    · rw [hv]
      constructor
      · intro h; simp at h
      · rintro ⟨-, -, ⟨t, htt⟩, -⟩
        rw [ht] at htt
        simp at htt
    · intro c
      rw [hv]
      constructor
      · intro h; simp at h
      · rintro ⟨-, -, htt, -⟩
        rw [ht] at htt
        simp at htt
  by_cases hcrc : beNat (v.drop (v.length - 4)) =
      Chunk.crc_digest ((v.drop 4).take 4) ((v.drop 8).take (v.length - 12))
  case neg =>
    have hv := tryFrom_badCrc h12 hlen ht hcrc
    refine ⟨?_, ?_, ?_,
      ⟨fun _ => ⟨by omega, hlen, ⟨t, ht⟩, hcrc⟩, fun _ => hv⟩, ?_⟩
    · rw [hv]
      exact ⟨fun h => by simp at h, fun hl => absurd hl h12⟩
    · rw [hv]
      exact ⟨fun h => by simp at h, fun h => absurd hlen h.2⟩
    · intro e
      rw [hv]
      constructor
      · intro h; simp at h
      · rintro ⟨-, -, hte⟩
        rw [ht] at hte
        simp at hte
    · intro c
      rw [hv]
      constructor
      · intro h; simp at h
      · rintro ⟨-, -, -, hc, -⟩
        exact absurd hc hcrc
  case pos =>
    have hv := tryFrom_ok h12 hlen ht hcrc
    refine ⟨?_, ?_, ?_, ?_, ?_⟩
    · rw [hv]
      exact ⟨fun h => by simp at h, fun hl => absurd hl h12⟩
    · rw [hv]
      exact ⟨fun h => by simp at h, fun h => absurd hlen h.2⟩
    · intro e
      rw [hv]
      constructor
      · intro h; simp at h
      · rintro ⟨-, -, hte⟩
        rw [ht] at hte
        simp at hte
    · rw [hv]
      constructor
      · intro h; simp at h
      · rintro ⟨-, -, -, hne⟩
        exact absurd hcrc hne
    · intro c
      rw [hv]
      constructor
      · intro h
        have hc : (⟨beNat (v.take 4), t, (v.drop 8).take (v.length - 12),
            beNat (v.drop (v.length - 4))⟩ : Chunk) = c := Except.ok.inj h
        rw [← hc]
        exact ⟨by omega, hlen, ht, hcrc, rfl, rfl, rfl⟩
      · rintro ⟨-, -, htc, -, hl, hd, hc⟩
        rw [ht] at htc
        have hct : t = c.chunk_type := Except.ok.inj htc
        have hce : c = ⟨beNat (v.take 4), t, (v.drop 8).take (v.length - 12),
            beNat (v.drop (v.length - 4))⟩ := by
          rcases c with ⟨cl, cct, cd, cc⟩
          simp only at hl hd hc hct
          rw [hl, hd, hc, hct]
        rw [hce]

/-! ## CRC evaluation on the repository's test vector, in three
chunks small enough for kernel reduction -/

lemma crcSplit : [82, 117, 83, 116] ++ secretMsg = crcInputA ++ (crcInputB ++ crcInputC) := by
  decide

set_option maxRecDepth 4000 in
lemma crcFoldA : List.foldl crcUpdateByte 0xFFFFFFFF crcInputA = 3296048446 := by
  decide

set_option maxRecDepth 4000 in
lemma crcFoldB : List.foldl crcUpdateByte 3296048446 crcInputB = 3991588506 := by
  decide

set_option maxRecDepth 4000 in
lemma crcFoldC : List.foldl crcUpdateByte 3991588506 crcInputC = 1412310961 := by
  decide

lemma crcTestValue : crc32 ([82, 117, 83, 116] ++ secretMsg) = 2882656334 := by
  rw [crc32, crcSplit, List.foldl_append, List.foldl_append, crcFoldA, crcFoldB,
    crcFoldC]
  decide

/-! ## Numeric helper lemmas -/

lemma beNat_u32ToBE {n : Nat} (h : n < 2 ^ 32) : beNat (u32ToBE n) = n := by
  simp only [u32ToBE, beNat, List.foldl]
  omega

lemma u32ToBE_beNat {a b c d : Nat} (ha : a < 256) (hb : b < 256) (hc : c < 256)
    (hd : d < 256) : u32ToBE (beNat [a, b, c, d]) = [a, b, c, d] := by
  simp only [u32ToBE, beNat, List.foldl, List.cons.injEq, and_true]
  refine ⟨?_, ?_, ?_, ?_⟩ <;> omega

lemma crcStep_lt {c : Nat} (h : c < 2 ^ 32) : crcStep c < 2 ^ 32 := by
  unfold crcStep
  split
  · apply Nat.xor_lt_two_pow
    · rw [Nat.shiftRight_eq_div_pow]
      omega
    · norm_num [crcPoly]
  · rw [Nat.shiftRight_eq_div_pow]
    omega

lemma crcStep_iter_lt (k : Nat) : ∀ {c : Nat}, c < 2 ^ 32 → crcStep^[k] c < 2 ^ 32 := by
  induction k with
  | zero => intro c h; simpa using h
  | succ k ih =>
    intro c h
    rw [Function.iterate_succ_apply]
    exact ih (crcStep_lt h)

lemma crcUpdateByte_lt {c b : Nat} (hc : c < 2 ^ 32) (hb : b < 2 ^ 32) :
    crcUpdateByte c b < 2 ^ 32 :=
  crcStep_iter_lt 8 (Nat.xor_lt_two_pow hc hb)

lemma crcFold_lt : ∀ (l : List Nat), (∀ b ∈ l, b < 256) → ∀ c : Nat, c < 2 ^ 32 →
    List.foldl crcUpdateByte c l < 2 ^ 32 := by
  intro l
  induction l with
  | nil => intro _ c hc; simpa using hc
  | cons b rest ih =>
    intro h c hc
    rw [List.foldl_cons]
    apply ih fun x hx => h x (List.mem_cons_of_mem _ hx)
    exact crcUpdateByte_lt hc
      (lt_trans (h b (List.mem_cons_self _ _)) (by norm_num))

lemma crc32_lt {l : List Nat} (h : ∀ b ∈ l, b < 256) : crc32 l < 2 ^ 32 := by
  unfold crc32
  apply Nat.xor_lt_two_pow
  · exact crcFold_lt l h _ (by norm_num)
  · norm_num

lemma crc_digest_lt {a b : List Nat} (ha : ∀ x ∈ a, x < 256)
    (hb : ∀ x ∈ b, x < 256) : Chunk.crc_digest a b < 2 ^ 32 := by
  apply crc32_lt
  intro x hx
  rcases List.mem_append.mp hx with h | h
  · exact ha x h
  · exact hb x h

/-! ## Serialization slicing lemmas -/

lemma as_bytes_eq (c : Chunk) :
    c.as_bytes =
      u32ToBE c.length ++ (c.chunk_type.bytes ++ (c.data ++ u32ToBE c.crc)) := by
  simp [Chunk.as_bytes, List.append_assoc]

lemma as_bytes_length (c : Chunk) : c.as_bytes.length = c.data.length + 12 := by
  rw [as_bytes_eq]
  simp only [List.length_append, u32ToBE, ChunkType.bytes, List.length_cons,
    List.length_nil]
  omega

lemma as_bytes_take4 (c : Chunk) : c.as_bytes.take 4 = u32ToBE c.length := by
  rw [as_bytes_eq]
  exact List.take_left' rfl

lemma as_bytes_drop4 (c : Chunk) :
    c.as_bytes.drop 4 = c.chunk_type.bytes ++ (c.data ++ u32ToBE c.crc) := by
  rw [as_bytes_eq]
  exact List.drop_left' rfl

lemma as_bytes_drop8 (c : Chunk) : c.as_bytes.drop 8 = c.data ++ u32ToBE c.crc := by
  rw [show (8 : Nat) = 4 + 4 from rfl, ← List.drop_drop, as_bytes_drop4]
  exact List.drop_left' rfl

lemma as_bytes_type_slice (c : Chunk) :
    (c.as_bytes.drop 4).take 4 = c.chunk_type.bytes := by
  rw [as_bytes_drop4]
  exact List.take_left' rfl

lemma as_bytes_data_slice (c : Chunk) :
    (c.as_bytes.drop 8).take c.data.length = c.data := by
  rw [as_bytes_drop8]
  exact List.take_left' rfl

lemma as_bytes_crc_slice (c : Chunk) :
    c.as_bytes.drop (c.as_bytes.length - 4) = u32ToBE c.crc := by
  have h : c.as_bytes.length - 4 = 8 + c.data.length := by
    rw [as_bytes_length]
    omega
  rw [h, ← List.drop_drop, as_bytes_drop8]
  exact List.drop_left' rfl

/-! ## Claims about Chunk construction -/

lemma chunk_new_length (t : ChunkType) (d : List Nat) :
    (Chunk.new t d).length = d.length % 2 ^ 32 := rfl

/-- Claim C3 counterexample: `Chunk::new` computes the length field as
`data.len() as u32`, so for data of 2^32 bytes the stored length (0)
differs from the data's length. -/
theorem chunk_new_length_truncation_cex :
    (Chunk.new testType (List.replicate (2 ^ 32) 0)).length ≠
      (List.replicate (2 ^ 32) (0 : Nat)).length := by
  rw [chunk_new_length, List.length_replicate, Nat.mod_self]
  norm_num

/-- Claim C3 (amended): `Chunk::new` is total and produces the claimed
fields, with `length() = data.len()` holding whenever the length fits
in a `u32` (the code truncates it with `as u32`); the CRC is the
CRC-32-ISO-HDLC checksum of the type bytes followed by the data. -/
theorem chunk_new_spec :
    ∀ (t : ChunkType) (data : List Nat), data.length < 2 ^ 32 →
      (Chunk.new t data).length = data.length ∧
      (Chunk.new t data).chunk_type = t ∧
      (Chunk.new t data).data = data ∧
      (Chunk.new t data).crc = crc32 (t.bytes ++ data) := by
  intro t data h
  exact ⟨Nat.mod_eq_of_lt h, rfl, rfl, rfl⟩

/-- Witness for the amended C3 at a concrete 3-byte chunk. -/
theorem chunk_new_spec_witness :
    ([1, 2, 3] : List Nat).length < 2 ^ 32 ∧
    ((Chunk.new testType [1, 2, 3]).length = ([1, 2, 3] : List Nat).length ∧
      (Chunk.new testType [1, 2, 3]).chunk_type = testType ∧
      (Chunk.new testType [1, 2, 3]).data = [1, 2, 3] ∧
      (Chunk.new testType [1, 2, 3]).crc = crc32 (testType.bytes ++ [1, 2, 3])) :=
  ⟨by norm_num, chunk_new_spec testType [1, 2, 3] (by norm_num)⟩

/-- Claim C8 counterexample: the test literal "This is where your
secret message will be!" has 42 bytes, not 44, so the constructed
chunk's length is not 44. -/
theorem chunk_new_testdata_cex :
    ¬ ((Chunk.new testType secretMsg).length = 44) := by decide

/-- Claim C8 (amended): the chunk built from type "RuSt" and the test
literal has CRC 2882656334 and length 42 — the literal's actual byte
count (the spec's "44 bytes" is wrong, as the spec itself notes by
deferring to the actual byte count, and the repository's tests assert
42). -/
theorem chunk_new_testdata :
    (Chunk.new testType secretMsg).crc = 2882656334 ∧
    (Chunk.new testType secretMsg).length = 42 ∧
    secretMsg.length = 42 := by
  refine ⟨?_, by decide, by decide⟩
  show crc32 (testType.bytes ++ secretMsg) = 2882656334
  exact crcTestValue

lemma chunk_new_data (t : ChunkType) (d : List Nat) :
    (Chunk.new t d).data = d := rfl

lemma chunk_new_chunk_type (t : ChunkType) (d : List Nat) :
    (Chunk.new t d).chunk_type = t := rfl

lemma chunk_new_crc (t : ChunkType) (d : List Nat) :
    (Chunk.new t d).crc = Chunk.crc_digest t.bytes d := rfl

lemma u32ToBE_beNat_list {l : List Nat} (h4 : l.length = 4)
    (hb : ∀ x ∈ l, x < 256) : u32ToBE (beNat l) = l := by
  rcases l with _ | ⟨a, _ | ⟨b, _ | ⟨c, _ | ⟨d, _ | ⟨e, r⟩⟩⟩⟩⟩ <;> simp at h4
  exact u32ToBE_beNat (hb a (by simp)) (hb b (by simp)) (hb c (by simp))
    (hb d (by simp))

lemma reassemble {v : List Nat} (h : 12 ≤ v.length) :
    v.take 4 ++ ((v.drop 4).take 4 ++
      ((v.drop 8).take (v.length - 12) ++ v.drop (v.length - 4))) = v := by
  have h1 : (v.drop 8).take (v.length - 12) ++ v.drop (v.length - 4) = v.drop 8 := by
    have hd : v.drop (v.length - 4) = (v.drop 8).drop (v.length - 12) := by
      rw [List.drop_drop]
      congr 1
      omega
    rw [hd]
    exact List.take_append_drop _ _
  have h2 : (v.drop 4).take 4 ++ v.drop 8 = v.drop 4 := by
    have hd : v.drop 8 = (v.drop 4).drop 4 := by rw [List.drop_drop]
    rw [hd]
    exact List.take_append_drop _ _
  rw [h1, h2]
  exact List.take_append_drop _ _

lemma chunkType_bytes_lt {t : ChunkType}
    (ht : ChunkType.tryFromSlice t.bytes = .ok t) : ∀ x ∈ t.bytes, x < 256 := by
  obtain ⟨-, h4⟩ := tryFromSlice_ok_inv ht
  obtain ⟨-, ha, hb, hc, hd⟩ := tryFrom4_ok_inv h4
  intro x hx
  rw [ChunkType.bytes] at hx
  simp only [List.mem_cons, List.not_mem_nil, or_false] at hx
  rcases hx with rfl | rfl | rfl | rfl
  · have := (badByte_false_iff _).mp ha; omega
  · have := (badByte_false_iff _).mp hb; omega
  · have := (badByte_false_iff _).mp hc; omega
  · have := (badByte_false_iff _).mp hd; omega

/-- Claim C1 (amended): serialization and parsing are mutually
inverse, with the first direction holding for every chunk built by
`Chunk::new` from a constructible chunk type and byte data whose
length fits in a `u32` (for longer data the `as u32` truncation breaks
the round trip); the second direction holds for every byte sequence
that parses successfully. -/
theorem chunk_roundtrip :
    (∀ (t : ChunkType) (data : List Nat),
      ChunkType.tryFromSlice t.bytes = .ok t →
      (∀ b ∈ data, b < 256) → data.length < 2 ^ 32 →
      Chunk.tryFrom (Chunk.new t data).as_bytes = .ok (Chunk.new t data)) ∧
    (∀ (v : List Nat) (c : Chunk), (∀ b ∈ v, b < 256) →
      Chunk.tryFrom v = .ok c → c.as_bytes = v) := by
  constructor
  · intro t data ht hb hlt
    have hlenf : (Chunk.new t data).length = data.length := by
      rw [chunk_new_length]
      exact Nat.mod_eq_of_lt hlt
    have hvlen : (Chunk.new t data).as_bytes.length = data.length + 12 := by
      rw [as_bytes_length, chunk_new_data]
    have hcrcb : Chunk.crc_digest t.bytes data < 2 ^ 32 :=
      crc_digest_lt (chunkType_bytes_lt ht) hb
    have h12 : ¬ (Chunk.new t data).as_bytes.length < 12 := by
      rw [hvlen]
      omega
    have htake : beNat ((Chunk.new t data).as_bytes.take 4) =
        (Chunk.new t data).as_bytes.length - 12 := by
      rw [as_bytes_take4, hlenf, beNat_u32ToBE hlt, hvlen]
      omega
    have htslice : ((Chunk.new t data).as_bytes.drop 4).take 4 = t.bytes := by
      rw [as_bytes_type_slice, chunk_new_chunk_type]
    have hdslice : ((Chunk.new t data).as_bytes.drop 8).take
        ((Chunk.new t data).as_bytes.length - 12) = data := by
      have h2 : (Chunk.new t data).as_bytes.length - 12 = data.length := by
        rw [hvlen]
        omega
      rw [h2]
      exact as_bytes_data_slice (Chunk.new t data)
    have hcslice : (Chunk.new t data).as_bytes.drop
        ((Chunk.new t data).as_bytes.length - 4) = u32ToBE (Chunk.crc_digest t.bytes data) := by
      rw [as_bytes_crc_slice, chunk_new_crc]
    have hcrceq : beNat ((Chunk.new t data).as_bytes.drop
        ((Chunk.new t data).as_bytes.length - 4)) =
        Chunk.crc_digest (((Chunk.new t data).as_bytes.drop 4).take 4)
          (((Chunk.new t data).as_bytes.drop 8).take
            ((Chunk.new t data).as_bytes.length - 12)) := by
      rw [hcslice, htslice, hdslice, beNat_u32ToBE hcrcb]
    have hres := tryFrom_ok h12 htake (by rw [htslice]; exact ht) hcrceq
    rw [hres]
    have hfield1 : beNat ((Chunk.new t data).as_bytes.take 4) = data.length := by
      rw [htake, hvlen]
      omega
    have hfield4 : beNat ((Chunk.new t data).as_bytes.drop
        ((Chunk.new t data).as_bytes.length - 4)) = Chunk.crc_digest t.bytes data := by
      rw [hcslice, beNat_u32ToBE hcrcb]
    rw [hfield1, hdslice, hfield4]
    have heq : (Chunk.new t data) =
        ⟨data.length, t, data, Chunk.crc_digest t.bytes data⟩ := by
      show (⟨data.length % 2 ^ 32, t, data, Chunk.crc_digest t.bytes data⟩ : Chunk) = _
      rw [Nat.mod_eq_of_lt hlt]
    rw [heq]
  · intro v c hbv h
    obtain ⟨h12, hlen, htc, hcrc, hcv⟩ := tryFrom_ok_inv h
    have hclen : c.length = beNat (v.take 4) := by rw [hcv]
    have hcdata : c.data = (v.drop 8).take (v.length - 12) := by rw [hcv]
    have hccrc : c.crc = beNat (v.drop (v.length - 4)) := by rw [hcv]
    have htb : c.chunk_type.bytes = (v.drop 4).take 4 := by
      obtain ⟨h1, -⟩ := tryFromSlice_ok_inv htc
      rw [ChunkType.bytes, h1]
    have hv4 : u32ToBE (beNat (v.take 4)) = v.take 4 := by
      apply u32ToBE_beNat_list
      · rw [List.length_take]
        omega
      · exact fun x hx => hbv x (List.take_subset _ _ hx)
    have hvc4 : u32ToBE (beNat (v.drop (v.length - 4))) = v.drop (v.length - 4) := by
      apply u32ToBE_beNat_list
      · rw [List.length_drop]
        omega
      · exact fun x hx => hbv x (List.drop_subset _ _ hx)
    rw [as_bytes_eq, hclen, hcdata, hccrc, htb, hv4, hvc4]
    exact reassemble (by omega)

/-- Claim C1 counterexample: with 2^32 bytes of data, `Chunk::new`
stores a truncated length field, so parsing the serialization fails
with `BadDataLen` instead of returning the chunk. -/
theorem chunk_roundtrip_cex :
    Chunk.tryFrom (Chunk.new testType (List.replicate (2 ^ 32) 0)).as_bytes =
      .error .BadDataLen := by
  have hdlen : (Chunk.new testType (List.replicate (2 ^ 32) 0)).data.length =
      2 ^ 32 := by
    rw [chunk_new_data, List.length_replicate]
  have hvlen : (Chunk.new testType (List.replicate (2 ^ 32) 0)).as_bytes.length =
      2 ^ 32 + 12 := by
    rw [as_bytes_length, hdlen]
  have hclen : (Chunk.new testType (List.replicate (2 ^ 32) 0)).length = 0 := by
    rw [chunk_new_length, List.length_replicate, Nat.mod_self]
  apply tryFrom_badDataLen
  · rw [hvlen]
    omega
  · rw [as_bytes_take4, hclen, hvlen, beNat_u32ToBE (by norm_num)]
    omega

set_option maxRecDepth 4000 in
/-- Witness for the amended C1 at a 2-byte chunk of type "RuSt" and
at its 14-byte serialized form. -/
theorem chunk_roundtrip_witness :
    (ChunkType.tryFromSlice testType.bytes = .ok testType ∧
      (∀ b ∈ ([104, 105] : List Nat), b < 256) ∧
      ([104, 105] : List Nat).length < 2 ^ 32 ∧
      Chunk.tryFrom (Chunk.new testType [104, 105]).as_bytes =
        .ok (Chunk.new testType [104, 105])) ∧
    (⟨2, testType, [104, 105], 3535552371⟩ : Chunk).as_bytes =
      [0, 0, 0, 2, 82, 117, 83, 116, 104, 105, 210, 188, 63, 115] :=
  ⟨⟨by decide, by decide, by decide,
    chunk_roundtrip.1 testType [104, 105] (by decide) (by decide) (by decide)⟩,
   chunk_roundtrip.2 [0, 0, 0, 2, 82, 117, 83, 116, 104, 105, 210, 188, 63, 115]
     ⟨2, testType, [104, 105], 3535552371⟩ (by decide) (by decide)⟩

set_option maxRecDepth 4000 in
/-- Witness for C2 at the repository's 54-byte test vector, which
parses successfully into the test chunk. -/
theorem chunk_tryFrom_algorithm_witness :
    Chunk.tryFrom testChunkBytes = .ok testChunk :=
  ((chunk_tryFrom_algorithm testChunkBytes).2.2.2.2 testChunk).mpr
    ⟨by decide, by decide, by decide,
     by
       have h1 : (testChunkBytes.drop 4).take 4 = [82, 117, 83, 116] := by decide
       have h2 : (testChunkBytes.drop 8).take (testChunkBytes.length - 12) =
           secretMsg := by decide
       have h3 : beNat (testChunkBytes.drop (testChunkBytes.length - 4)) =
           2882656334 := by decide
       rw [h1, h2, h3, Chunk.crc_digest]
       exact crcTestValue.symm,
     by decide, by decide, by decide⟩

/-! ## The encode command -/

lemma removeFirst_none {t : ChunkType} : ∀ {l : List Chunk},
    (∀ c ∈ l, c.chunk_type ≠ t) → removeFirst t l = none := by
  intro l
  induction l with
  | nil => intro _; rfl
  | cons c rest ih =>
    intro h
    rw [removeFirst, if_neg (h c (List.mem_cons_self _ _)),
      ih fun x hx => h x (List.mem_cons_of_mem _ hx)]

/-- Claim C10: `encode` fails with `ChunkNotFound` whenever the parsed
PNG holds no chunk of type "IEND"; `removeFirst` removes exactly the
first matching chunk; and on success the output chunk sequence is the
input without its first IEND chunk, followed by the new message chunk
and then the removed IEND chunk — so the message chunk sits
immediately before the final IEND chunk, not at the very end. -/
theorem encode_iend_placement :
    (∀ (p : Png) (s m : List Nat),
      (∀ c ∈ p.chunks, c.chunk_type ≠ iendType) →
      encode p s m = .error (.PngErr .ChunkNotFound)) ∧
    (∀ (t : ChunkType) (l : List Chunk) (e : Chunk) (rest : List Chunk),
      removeFirst t l = some (e, rest) →
      e.chunk_type = t ∧ ∃ pre post, l = pre ++ e :: post ∧ rest = pre ++ post ∧
        ∀ c ∈ pre, c.chunk_type ≠ t) ∧
    (∀ (p : Png) (s m : List Nat) (e : Chunk) (rest : List Chunk) (t : ChunkType),
      removeFirst iendType p.chunks = some (e, rest) →
      ChunkType.from_str s = .ok t →
      encode p s m = .ok ⟨rest ++ [Chunk.new t m, e]⟩) := by
  have hiend : ChunkType.from_str iendStr = .ok iendType := by decide
  refine ⟨?_, ?_, ?_⟩
  · intro p s m h
    simp [encode, Png.remove_chunk, hiend, removeFirst_none h]
  · intro t l
    induction l with
    | nil => intro e rest h; cases h
    | cons c rest0 ih =>
      intro e rest h
      rw [removeFirst] at h
      by_cases hc : c.chunk_type = t
      · rw [if_pos hc] at h
        obtain ⟨rfl, rfl⟩ : c = e ∧ rest0 = rest := by
          have := Option.some.inj h
          exact ⟨congrArg Prod.fst this, congrArg Prod.snd this⟩
        exact ⟨hc, [], _, rfl, rfl, by simp⟩
      · rw [if_neg hc] at h
        obtain ⟨r2, ht2⟩ | hn :
            (∃ pr, removeFirst t rest0 = some pr) ∨ removeFirst t rest0 = none := by
          cases removeFirst t rest0 with
          | some pr => exact .inl ⟨pr, rfl⟩
          | none => exact .inr rfl
        · obtain ⟨re, rrest⟩ := r2
          rw [ht2] at h
          obtain ⟨rfl, rfl⟩ : re = e ∧ c :: rrest = rest := by
            have := Option.some.inj h
            exact ⟨congrArg Prod.fst this, congrArg Prod.snd this⟩
          obtain ⟨he, pre, post, hl2, hr2, hpre⟩ := ih _ _ ht2
          refine ⟨he, c :: pre, post, by rw [hl2]; simp, by rw [hr2]; simp, ?_⟩
          intro x hx
          rcases List.mem_cons.mp hx with rfl | hx2
          · exact hc
          · exact hpre x hx2
        · rw [hn] at h
          cases h
  · intro p s m e rest t hrm hts
    simp [encode, Png.remove_chunk, hiend, hrm, hts, Png.append_chunk]

set_option maxRecDepth 4000 in
/-- Witness for C10: a PNG without IEND makes encode fail with
`ChunkNotFound`; on a PNG of one data chunk and one IEND chunk, encode
with type "teSt" appends the message chunk immediately before the
re-appended IEND chunk. -/
theorem encode_iend_placement_witness :
    encode ⟨[Chunk.new testType [1]]⟩ [116, 101, 83, 116] [104] =
      .error (.PngErr .ChunkNotFound) ∧
    ((Chunk.new iendType []).chunk_type = iendType ∧
      ∃ pre post,
        [Chunk.new testType [1], Chunk.new iendType []] =
          pre ++ Chunk.new iendType [] :: post ∧
        [Chunk.new testType [1]] = pre ++ post ∧
        ∀ c ∈ pre, c.chunk_type ≠ iendType) ∧
    encode ⟨[Chunk.new testType [1], Chunk.new iendType []]⟩
        [116, 101, 83, 116] [104] =
      .ok ⟨[Chunk.new testType [1]] ++
        [Chunk.new ⟨116, 101, 83, 116⟩ [104], Chunk.new iendType []]⟩ :=
  ⟨encode_iend_placement.1 ⟨[Chunk.new testType [1]]⟩ [116, 101, 83, 116] [104]
     (by decide),
   encode_iend_placement.2.1 iendType [Chunk.new testType [1], Chunk.new iendType []]
     (Chunk.new iendType []) [Chunk.new testType [1]] (by decide),
   encode_iend_placement.2.2 ⟨[Chunk.new testType [1], Chunk.new iendType []]⟩
     [116, 101, 83, 116] [104] (Chunk.new iendType []) [Chunk.new testType [1]]
     ⟨116, 101, 83, 116⟩ (by decide) (by decide)⟩
